import Mathlib

/-!
Shallow embedding of the cart-to-order pipeline of the Flask application
(`src/app.py`, `src/database.py`).  SQLAlchemy rows become Lean structures,
each table a list of rows inside a `DB` state, and every request handler a
pure function `DB → result × DB`.  Prices (`db.Float` columns) are modelled
as rationals; quantities (`db.Integer`) as integers, since the form value is
coerced with `type=int` and may be negative.  Autoincrement primary keys are
modelled with explicit `next_cart_id` / `next_order_id` counters.  Columns
never read by any handler (photos, descriptions, timestamps, surrogate ids of
order items) are omitted.
-/

namespace UserApp

/-- Row of the `services` table (`database.py`, class `Service`). -/
structure Service where
  id : Nat
  name : String
  original_price : ℚ
  discount : ℚ
  final_price : ℚ
  status : String
deriving DecidableEq

/-- Row of the `menu` table (`database.py`, class `Menu`). -/
structure Menu where
  id : Nat
  name : String
  original_price : ℚ
  discount : ℚ
  final_price : ℚ
  status : String
deriving DecidableEq

/-- Row of the `cart` table (`database.py`, class `Cart`). -/
structure Cart where
  id : Nat
  user_id : Nat
  item_type : String
  item_id : Nat
  quantity : Int
deriving DecidableEq

/-- Row of the `orders` table (`database.py`, class `Order`). -/
structure Order where
  id : Nat
  user_id : Nat
  total_amount : ℚ
  payment_mode : String
  delivery_location : String
  order_status : String
deriving DecidableEq

/-- Row of the `order_items` table (`database.py`, class `OrderItem`). -/
structure OrderItem where
  order_id : Nat
  item_type : String
  item_id : Nat
  quantity : Int
  price : ℚ
deriving DecidableEq

/-- The persistent database state: the five tables the cart/order flow
touches, plus autoincrement counters for the two tables whose generated ids
the handlers use. -/
structure DB where
  services : List Service
  menus : List Menu
  cart : List Cart
  orders : List Order
  order_items : List OrderItem
  next_cart_id : Nat
  next_order_id : Nat
deriving DecidableEq

/-- `Service.query.get(item_id)`: primary-key lookup in the services table. -/
def Service.get (db : DB) (item_id : Nat) : Option Service :=
  db.services.find? (fun s => s.id == item_id)

/-- `Menu.query.get(item_id)`: primary-key lookup in the menu table. -/
def Menu.get (db : DB) (item_id : Nat) : Option Menu :=
  db.menus.find? (fun m => m.id == item_id)

/-- The result of the kind dispatch `if item.item_type == 'service': ...
else: ...` — either a Service row or a Menu row. -/
inductive ItemDetail where
  | service : Service → ItemDetail
  | menu : Menu → ItemDetail
deriving DecidableEq

/-- `item_detail.final_price` on whichever row the dispatch produced. -/
def ItemDetail.final_price : ItemDetail → ℚ
  | .service s => s.final_price
  | .menu m => m.final_price

/-- The catalog resolution step repeated at every read site of `app.py`
(cart view, order form, place_order, order_history):
`Service.query.get(item_id)` when `item_type == 'service'`, otherwise
`Menu.query.get(item_id)`. -/
def resolveItem (db : DB) (item_type : String) (item_id : Nat) : Option ItemDetail :=
  if item_type == "service" then (Service.get db item_id).map ItemDetail.service
  else (Menu.get db item_id).map ItemDetail.menu

/-- An untrusted form field as Werkzeug's `MultiDict.get(key, default,
type=int)` sees it: absent, present but failing `int()` conversion, or
carrying an integer value (possibly zero or negative — `int()` accepts any
sign). -/
inductive FormValue where
  | missing
  | malformed
  | value : Int → FormValue
deriving DecidableEq

/-- `request.form.get('quantity', 1, type=int)`: a missing field gives the
default 1, a field whose `int()` conversion raises gives the default 1, and
an integer-shaped field gives its (possibly non-positive) value. -/
def parseQuantity : FormValue → Int
  | .missing => 1
  | .malformed => 1
  | .value n => n

/-- The filter used by `Cart.query.filter_by(user_id=..., item_type=...,
item_id=...)` in `add_to_cart`. -/
def cartKey (uid : Nat) (item_type : String) (item_id : Nat) (c : Cart) : Bool :=
  c.user_id == uid && c.item_type == item_type && c.item_id == item_id

/-- Mutating the row returned by `.first()`: the first row satisfying `p` is
replaced by `f` of it, every other row is untouched. -/
def updateFirst (p : Cart → Bool) (f : Cart → Cart) : List Cart → List Cart
  | [] => []
  | c :: cs => if p c then f c :: cs else c :: updateFirst p f cs

/-- The JSON payload returned by the `add_to_cart` handler. -/
structure AddResult where
  success : Bool
  message : String
deriving DecidableEq

/-- `POST /add_to_cart` (`app.py`, `add_to_cart`): parse the quantity, look
for an existing cart line with the same (user, item_type, item_id); increment
its quantity if found, otherwise insert a new line. No catalog table is
consulted. -/
def add_to_cart (db : DB) (uid : Nat) (item_type : String) (item_id : Nat)
    (quantityForm : FormValue) : AddResult × DB :=
  let quantity := parseQuantity quantityForm
  match db.cart.find? (cartKey uid item_type item_id) with
  | some _ =>
      (⟨true, "Item added to cart"⟩,
        { db with cart := updateFirst (cartKey uid item_type item_id)
                    (fun c => { c with quantity := c.quantity + quantity }) db.cart })
  | none =>
      (⟨true, "Item added to cart"⟩,
        { db with
            cart := db.cart ++ [⟨db.next_cart_id, uid, item_type, item_id, quantity⟩]
            next_cart_id := db.next_cart_id + 1 })

/-- One entry of the `cart_details` list built by the `GET /cart` handler. -/
structure CartDetail where
  cart_id : Nat
  item_type : String
  item_detail : ItemDetail
  quantity : Int
  total : ℚ
deriving DecidableEq

/-- One iteration of the loop in the `cart` handler: a line whose catalog
item resolves is appended to the details with its line total added to the
running amount; an unresolvable line is skipped. -/
def cartStep (db : DB) (acc : List CartDetail × ℚ) (item : Cart) : List CartDetail × ℚ :=
  match resolveItem db item.item_type item.item_id with
  | none => acc
  | some d =>
      (acc.1 ++ [⟨item.id, item.item_type, d, item.quantity,
          d.final_price * (item.quantity : ℚ)⟩],
        acc.2 + d.final_price * (item.quantity : ℚ))

/-- `GET /cart` (`app.py`, `cart`): the resolved cart lines of the user and
the displayed total. Pure read. -/
def cart_view (db : DB) (uid : Nat) : List CartDetail × ℚ :=
  (db.cart.filter (fun c => c.user_id == uid)).foldl (cartStep db) ([], 0)

/-- The outcome of `remove_from_cart`: `get_or_404` miss, ownership failure,
or deletion. -/
inductive RemoveResult where
  | notFound
  | unauthorized
  | removed
deriving DecidableEq

/-- `GET /remove_from_cart/<cart_id>` (`app.py`, `remove_from_cart`):
`Cart.query.get_or_404(cart_id)`, then the ownership check
`cart_item.user_id != session['user_id']`, and only then the delete. -/
def remove_from_cart (db : DB) (uid : Nat) (cart_id : Nat) : RemoveResult × DB :=
  match db.cart.find? (fun c => c.id == cart_id) with
  | none => (.notFound, db)
  | some cart_item =>
      if cart_item.user_id != uid then (.unauthorized, db)
      else (.removed, { db with cart := db.cart.filter (fun c => !(c.id == cart_id)) })

/-- One element of the `order_items` list the `place_order` loop accumulates
(the dict with item_type, item_id, quantity, price). -/
structure PendingItem where
  item_type : String
  item_id : Nat
  quantity : Int
  price : ℚ
deriving DecidableEq

/-- One iteration of the pricing loop in `place_order`: a resolvable line
adds `final_price * quantity` to the total and appends the snapshot dict; an
unresolvable line is skipped. -/
def orderStep (db : DB) (acc : ℚ × List PendingItem) (item : Cart) : ℚ × List PendingItem :=
  match resolveItem db item.item_type item.item_id with
  | none => acc
  | some d =>
      (acc.1 + d.final_price * (item.quantity : ℚ),
        acc.2 ++ [⟨item.item_type, item.item_id, item.quantity, d.final_price⟩])

/-- The outcome of `place_order`: the empty-cart redirect, or the created
order's id. -/
inductive PlaceOrderResult where
  | emptyCart
  | placed : Nat → PlaceOrderResult
deriving DecidableEq

/-- `POST /place_order` (`app.py`, `place_order`): load the user's cart
lines; if empty, redirect with no mutation.  Otherwise run the pricing loop,
create the Order row (status defaulting to "Pending"), create one OrderItem
row per resolved line carrying the snapshot price, delete all of the user's
cart rows, and commit everything together. -/
def place_order (db : DB) (uid : Nat) (delivery_location payment_mode : String) :
    PlaceOrderResult × DB :=
  let cart_items := db.cart.filter (fun c => c.user_id == uid)
  if cart_items.isEmpty then (.emptyCart, db)
  else
    let acc := cart_items.foldl (orderStep db) (0, [])
    let oid := db.next_order_id
    let order : Order := ⟨oid, uid, acc.1, payment_mode, delivery_location, "Pending"⟩
    let new_items := acc.2.map (fun p =>
      OrderItem.mk oid p.item_type p.item_id p.quantity p.price)
    (.placed oid,
      { db with
          orders := db.orders ++ [order]
          order_items := db.order_items ++ new_items
          cart := db.cart.filter (fun c => !(c.user_id == uid))
          next_order_id := oid + 1 })

/-- One entry of the per-order `items` list in `order_history`: the stored
type, quantity and snapshot price, plus optional display enrichment. -/
structure HistoryItem where
  htype : String
  detail : Option ItemDetail
  quantity : Int
  price : ℚ
deriving DecidableEq

/-- The enrichment of one OrderItem row in the `order_history` loop. -/
def historyEntry (db : DB) (it : OrderItem) : HistoryItem :=
  ⟨it.item_type, resolveItem db it.item_type it.item_id, it.quantity, it.price⟩

/-- `GET /order_history` (`app.py`, `order_history`): the user's orders most
recent first (rows are stored in insertion order and sorted by descending
order date), each joined with its OrderItem rows and enriched against the
catalog. Pure read. -/
def order_history (db : DB) (uid : Nat) : List (Order × List HistoryItem) :=
  ((db.orders.filter (fun o => o.user_id == uid)).reverse).map (fun o =>
    (o, (db.order_items.filter (fun it => it.order_id == o.id)).map (historyEntry db)))

/-- The OrderItem rows belonging to order `oid`. -/
def orderLines (db : DB) (oid : Nat) : List OrderItem :=
  db.order_items.filter (fun it => it.order_id == oid)

/-- Sum over order lines of `quantity * price` (the spec's financial
self-consistency sum). -/
def linesTotal (l : List OrderItem) : ℚ :=
  (l.map (fun it => (it.quantity : ℚ) * it.price)).sum

/-- Sum over pending snapshot dicts of `quantity * price`. -/
def pendingSum (l : List PendingItem) : ℚ :=
  (l.map (fun p => (p.quantity : ℚ) * p.price)).sum

/-- The snapshot dict a cart line contributes to the `place_order` loop, if
its catalog item resolves. -/
def pendingOf (db : DB) (c : Cart) : Option PendingItem :=
  (resolveItem db c.item_type c.item_id).map
    (fun d => ⟨c.item_type, c.item_id, c.quantity, d.final_price⟩)

/-- Modelled from the spec: "Changing a CatalogItem's `finalPrice` after an
order was placed".  No handler in `src/` writes catalog prices, so the write
is modelled as a direct update of the services table. -/
def set_service_price (db : DB) (sid : Nat) (p : ℚ) : DB :=
  { db with services := db.services.map
              (fun s => if s.id == sid then { s with final_price := p } else s) }

/-- Modelled from the spec: the same `finalPrice` update on the menu table. -/
def set_menu_price (db : DB) (mid : Nat) (p : ℚ) : DB :=
  { db with menus := db.menus.map
              (fun m => if m.id == mid then { m with final_price := p } else m) }

/-- Rewrite every status flag in both catalog tables (used to state that
catalog resolution and pricing are independent of `status`). -/
def set_statuses (db : DB) (f g : String → String) : DB :=
  { db with
      services := db.services.map (fun s => { s with status := f s.status })
      menus := db.menus.map (fun m => { m with status := g m.status }) }

/-- The status rewrite lifted to a resolved item. -/
def ItemDetail.setStatus (f g : String → String) : ItemDetail → ItemDetail
  | .service s => .service { s with status := f s.status }
  | .menu m => .menu { m with status := g m.status }

/-- Does the table selected by `item_type` contain a row with id
`item_id`? -/
def memberWithId (db : DB) (item_type : String) (item_id : Nat) : Bool :=
  if item_type == "service" then db.services.any (fun s => s.id == item_id)
  else db.menus.any (fun m => m.id == item_id)

/-! ### Concrete example databases -/

/-- A database with empty catalog, cart and order tables. -/
def dbEmpty : DB := ⟨[], [], [], [], [], 0, 1⟩

/-- One active service (id 1, final price 100), one active menu item (id 7,
final price 50), and user 1's cart holding both (quantities 2 and 1). -/
def dbTwoLines : DB :=
  { services := [⟨1, "cleaning", 120, 20, 100, "active"⟩]
    menus := [⟨7, "pizza", 60, 10, 50, "active"⟩]
    cart := [⟨0, 1, "service", 1, 2⟩, ⟨1, 1, "menu", 7, 1⟩]
    orders := []
    order_items := []
    next_cart_id := 2
    next_order_id := 1 }

/-- A single cart line referencing a catalog item present in no table. -/
def dbOrphan : DB :=
  { services := [], menus := []
    cart := [⟨0, 1, "service", 9, 2⟩]
    orders := [], order_items := [], next_cart_id := 1, next_order_id := 1 }

/-- User 1's cart already holds a menu line (item 7) with quantity 2. -/
def dbOneLine : DB :=
  { services := [], menus := [⟨7, "pizza", 60, 10, 50, "active"⟩]
    cart := [⟨0, 1, "menu", 7, 2⟩]
    orders := [], order_items := [], next_cart_id := 1, next_order_id := 1 }

/-- One deactivated service in the catalog and a cart line referencing it. -/
def dbInactive : DB :=
  { services := [⟨1, "cleaning", 120, 20, 100, "inactive"⟩], menus := []
    cart := [⟨0, 1, "service", 1, 2⟩]
    orders := [], order_items := [], next_cart_id := 1, next_order_id := 1 }

/-! ### Helper lemmas about the `place_order` pricing loop -/

theorem orderStep_resolve_none {db : DB} {item : Cart}
    (acc : ℚ × List PendingItem)
    (h : resolveItem db item.item_type item.item_id = none) :
    orderStep db acc item = acc := by
  simp [orderStep, h]

theorem orderStep_resolve_some {db : DB} {item : Cart} {d : ItemDetail}
    (acc : ℚ × List PendingItem)
    (h : resolveItem db item.item_type item.item_id = some d) :
    orderStep db acc item =
      (acc.1 + d.final_price * (item.quantity : ℚ),
        acc.2 ++ [⟨item.item_type, item.item_id, item.quantity, d.final_price⟩]) := by
  simp [orderStep, h]

theorem pendingSum_nil : pendingSum [] = 0 := rfl

theorem pendingSum_cons (p : PendingItem) (l : List PendingItem) :
    pendingSum (p :: l) = (p.quantity : ℚ) * p.price + pendingSum l := by
  simp [pendingSum]

/-- The pricing loop of `place_order`, run from any accumulator: the total
grows by the `quantity * price` sum of the resolvable lines, and the snapshot
dicts of exactly the resolvable lines are appended in order. -/
theorem foldl_orderStep_spec (db : DB) (l : List Cart) (t : ℚ)
    (its : List PendingItem) :
    l.foldl (orderStep db) (t, its) =
      (t + pendingSum (l.filterMap (pendingOf db)),
        its ++ l.filterMap (pendingOf db)) := by
  induction l generalizing t its with
  | nil => simp [pendingSum]
  | cons c cs ih =>
      rw [List.foldl_cons]
      cases h : resolveItem db c.item_type c.item_id with
      | none =>
          have hp : pendingOf db c = none := by simp [pendingOf, h]
          rw [orderStep_resolve_none _ h, List.filterMap_cons, hp]
          exact ih t its
      | some d =>
          have hp : pendingOf db c =
              some ⟨c.item_type, c.item_id, c.quantity, d.final_price⟩ := by
            simp [pendingOf, h]
          rw [orderStep_resolve_some _ h, ih, List.filterMap_cons, hp]
          simp only [Prod.mk.injEq, pendingSum_cons]
          exact ⟨by ring, by simp⟩

/-- `place_order` on a non-empty cart, fully characterized: the order row
with the loop total, the snapshot rows for the resolvable lines, the cleared
cart, and the bumped order id. -/
theorem place_order_nonempty (db : DB) (uid : Nat) (loc pm : String)
    (h : (db.cart.filter (fun c => c.user_id == uid)).isEmpty = false) :
    place_order db uid loc pm =
      (.placed db.next_order_id,
        { db with
            orders := db.orders ++ [⟨db.next_order_id, uid,
              pendingSum ((db.cart.filter (fun c => c.user_id == uid)).filterMap
                (pendingOf db)), pm, loc, "Pending"⟩]
            order_items := db.order_items ++
              ((db.cart.filter (fun c => c.user_id == uid)).filterMap
                (pendingOf db)).map (fun p =>
                  OrderItem.mk db.next_order_id p.item_type p.item_id
                    p.quantity p.price)
            cart := db.cart.filter (fun c => !(c.user_id == uid))
            next_order_id := db.next_order_id + 1 }) := by
  unfold place_order
  rw [if_neg (by simp [h])]
  rw [foldl_orderStep_spec]
  simp

theorem filter_not_filter_user (l : List Cart) (uid : Nat) :
    (l.filter (fun c => !(c.user_id == uid))).filter
      (fun c => c.user_id == uid) = [] := by
  rw [List.filter_filter]
  exact List.filter_eq_nil_iff.mpr (fun a _ => by simp [Bool.and_comm])

theorem linesTotal_map_mk (oid : Nat) (l : List PendingItem) :
    linesTotal (l.map (fun p =>
      OrderItem.mk oid p.item_type p.item_id p.quantity p.price)) =
      pendingSum l := by
  unfold linesTotal pendingSum
  rw [List.map_map]
  rfl

/-! ### Helper lemmas about `updateFirst` -/

/-- If `find?` returns a row, the list splits around the first match, and
`updateFirst` rewrites exactly that row. -/
theorem updateFirst_decomp (p : Cart → Bool) (f : Cart → Cart)
    (l : List Cart) (c : Cart) (h : l.find? p = some c) :
    l = l.takeWhile (fun x => !(p x)) ++
        c :: (l.dropWhile (fun x => !(p x))).tail ∧
    updateFirst p f l =
      l.takeWhile (fun x => !(p x)) ++
        f c :: (l.dropWhile (fun x => !(p x))).tail ∧
    p c = true := by
  induction l with
  | nil => simp at h
  | cons a as ih =>
      by_cases hp : p a = true
      · rw [List.find?_cons_of_pos _ hp] at h
        injection h with h
        subst h
        refine ⟨?_, ?_, hp⟩
        · simp [List.takeWhile_cons, List.dropWhile_cons, hp]
        · simp [List.takeWhile_cons, List.dropWhile_cons, hp, updateFirst]
      · rw [List.find?_cons_of_neg _ hp] at h
        have hp' : p a = false := by simpa using hp
        obtain ⟨h1, h2, h3⟩ := ih h
        refine ⟨?_, ?_, h3⟩
        · conv_lhs => rw [h1]
          simp [List.takeWhile_cons, List.dropWhile_cons, hp']
        · simp only [updateFirst, if_neg hp]
          rw [h2]
          simp [List.takeWhile_cons, List.dropWhile_cons, hp']

theorem cartKey_set_quantity (uid : Nat) (t : String) (i : Nat) (c : Cart)
    (q : Int) : cartKey uid t i { c with quantity := q } = cartKey uid t i c :=
  rfl

/-! ### Helper lemmas about status independence of resolution -/

theorem get_set_statuses_service (db : DB) (f g : String → String) (i : Nat) :
    Service.get (set_statuses db f g) i =
      (Service.get db i).map (fun s => { s with status := f s.status }) := by
  simp only [Service.get, set_statuses]
  rw [List.find?_map]
  rfl

theorem get_set_statuses_menu (db : DB) (f g : String → String) (i : Nat) :
    Menu.get (set_statuses db f g) i =
      (Menu.get db i).map (fun m => { m with status := g m.status }) := by
  simp only [Menu.get, set_statuses]
  rw [List.find?_map]
  rfl

theorem resolveItem_set_statuses (db : DB) (f g : String → String)
    (t : String) (i : Nat) :
    resolveItem (set_statuses db f g) t i =
      (resolveItem db t i).map (ItemDetail.setStatus f g) := by
  by_cases ht : (t == "service") = true
  · cases hs : Service.get db i <;>
      simp [resolveItem, ht, get_set_statuses_service, hs, ItemDetail.setStatus]
  · cases hm : Menu.get db i <;>
      simp [resolveItem, ht, get_set_statuses_menu, hm, ItemDetail.setStatus]

theorem final_price_setStatus (f g : String → String) (d : ItemDetail) :
    (d.setStatus f g).final_price = d.final_price := by
  cases d <;> rfl

theorem orderStep_set_statuses (db : DB) (f g : String → String) :
    orderStep (set_statuses db f g) = orderStep db := by
  funext acc item
  cases h : resolveItem db item.item_type item.item_id with
  | none =>
      have h2 : resolveItem (set_statuses db f g) item.item_type item.item_id
          = none := by rw [resolveItem_set_statuses, h]; rfl
      rw [orderStep_resolve_none _ h2, orderStep_resolve_none _ h]
  | some d =>
      have h2 : resolveItem (set_statuses db f g) item.item_type item.item_id
          = some (d.setStatus f g) := by rw [resolveItem_set_statuses, h]; rfl
      rw [orderStep_resolve_some _ h2, orderStep_resolve_some _ h,
        final_price_setStatus]

theorem cart_total_set_statuses (db : DB) (f g : String → String)
    (l : List Cart) :
    ∀ (a a' : List CartDetail) (t : ℚ),
      (l.foldl (cartStep (set_statuses db f g)) (a', t)).2 =
        (l.foldl (cartStep db) (a, t)).2 := by
  induction l with
  | nil => intro a a' t; rfl
  | cons c cs ih =>
      intro a a' t
      rw [List.foldl_cons, List.foldl_cons]
      cases h : resolveItem db c.item_type c.item_id with
      | none =>
          have h2 : resolveItem (set_statuses db f g) c.item_type c.item_id
              = none := by rw [resolveItem_set_statuses, h]; rfl
          simp only [cartStep, h, h2]
          exact ih a a' t
      | some d =>
          have h2 : resolveItem (set_statuses db f g) c.item_type c.item_id
              = some (d.setStatus f g) := by
            rw [resolveItem_set_statuses, h]; rfl
          simp only [cartStep, h, h2, final_price_setStatus]
          exact ih _ _ _

theorem pendingOf_set_statuses (db : DB) (f g : String → String) :
    pendingOf (set_statuses db f g) = pendingOf db := by
  funext c
  rw [pendingOf, pendingOf, resolveItem_set_statuses]
  cases resolveItem db c.item_type c.item_id <;>
    simp [final_price_setStatus]

theorem resolve_isSome_of_member (db : DB) (t : String) (i : Nat)
    (h : memberWithId db t i = true) : (resolveItem db t i).isSome = true := by
  by_cases ht : (t == "service") = true
  · simp only [memberWithId, ht, if_true] at h
    have hs : (db.services.find? (fun s => s.id == i)).isSome = true :=
      List.find?_isSome.mpr (List.any_eq_true.mp h)
    rcases hfind : db.services.find? (fun s => s.id == i) with _ | s
    · rw [hfind] at hs; simp at hs
    · simp [resolveItem, ht, Service.get, hfind]
  · have ht' : (t == "service") = false := by simpa using ht
    simp only [memberWithId, ht', Bool.false_eq_true, if_false] at h
    have hm : (db.menus.find? (fun m => m.id == i)).isSome = true :=
      List.find?_isSome.mpr (List.any_eq_true.mp h)
    rcases hfind : db.menus.find? (fun m => m.id == i) with _ | m
    · rw [hfind] at hm; simp at hm
    · simp [resolveItem, ht', Menu.get, hfind]

/-! ### Claim theorems -/

/-- C4: for every user whose cart is empty, `place_order` takes the
empty-cart early return: it reports the failure and returns the database
completely unchanged — zero Order rows created, no side effects. -/
theorem place_order_empty_cart (db : DB) (uid : Nat) (loc pm : String)
    (h : db.cart.filter (fun c => c.user_id == uid) = []) :
    place_order db uid loc pm = (.emptyCart, db) := by
  simp [place_order, h]

/-- C1: for every user with a non-empty cart, `place_order` succeeds, leaves
the user's cart empty, and appends exactly one new Order whose
`total_amount` equals the sum over its created OrderItem rows of
`quantity * price` (the snapshot unit price at purchase).  The freshness
hypothesis says the autoincremented order id is not already used by an
existing OrderItem row. -/
theorem place_order_financially_consistent (db : DB) (uid : Nat)
    (loc pm : String)
    (hfresh : ∀ it ∈ db.order_items, it.order_id ≠ db.next_order_id)
    (hne : (db.cart.filter (fun c => c.user_id == uid)).isEmpty = false) :
    (place_order db uid loc pm).1 = .placed db.next_order_id ∧
    (place_order db uid loc pm).2.cart.filter (fun c => c.user_id == uid)
      = [] ∧
    (place_order db uid loc pm).2.orders = db.orders ++
      [⟨db.next_order_id, uid,
        linesTotal (orderLines (place_order db uid loc pm).2
          db.next_order_id), pm, loc, "Pending"⟩] := by
  rw [place_order_nonempty db uid loc pm hne]
  dsimp only [orderLines]
  refine ⟨rfl, filter_not_filter_user _ _, ?_⟩
  have hold : db.order_items.filter
      (fun it => it.order_id == db.next_order_id) = [] :=
    List.filter_eq_nil_iff.mpr (fun it hit => by
      simpa using hfresh it hit)
  have hnew : (((db.cart.filter (fun c => c.user_id == uid)).filterMap
      (pendingOf db)).map (fun p => OrderItem.mk db.next_order_id
        p.item_type p.item_id p.quantity p.price)).filter
      (fun it => it.order_id == db.next_order_id) =
      ((db.cart.filter (fun c => c.user_id == uid)).filterMap
        (pendingOf db)).map (fun p => OrderItem.mk db.next_order_id
          p.item_type p.item_id p.quantity p.price) :=
    List.filter_eq_self.mpr (fun it hit => by
      obtain ⟨p, _, rfl⟩ := List.mem_map.mp hit
      simp)
  rw [List.filter_append, hold, hnew, List.nil_append, linesTotal_map_mk]

/-- C5: during `place_order` on a non-empty cart, a cart line whose catalog
item fails to resolve is silently dropped (the snapshot rows are exactly the
image of the resolvable lines, and the result is a success either way), the
cart is fully cleared regardless, and if every line fails to resolve the
order is still created with `total_amount = 0` and no OrderItem rows. -/
theorem place_order_silent_skip (db : DB) (uid : Nat) (loc pm : String)
    (hne : (db.cart.filter (fun c => c.user_id == uid)).isEmpty = false) :
    (place_order db uid loc pm).1 = .placed db.next_order_id ∧
    (place_order db uid loc pm).2.cart.filter (fun c => c.user_id == uid)
      = [] ∧
    (place_order db uid loc pm).2.order_items = db.order_items ++
      (db.cart.filter (fun c => c.user_id == uid)).filterMap (fun c =>
        (resolveItem db c.item_type c.item_id).map (fun d =>
          OrderItem.mk db.next_order_id c.item_type c.item_id c.quantity
            d.final_price)) ∧
    ((∀ c ∈ db.cart.filter (fun c => c.user_id == uid),
        resolveItem db c.item_type c.item_id = none) →
      (place_order db uid loc pm).2.order_items = db.order_items ∧
      (place_order db uid loc pm).2.orders = db.orders ++
        [⟨db.next_order_id, uid, 0, pm, loc, "Pending"⟩]) := by
  rw [place_order_nonempty db uid loc pm hne]
  dsimp only
  refine ⟨rfl, filter_not_filter_user _ _, ?_, ?_⟩
  · have hfun : (fun c : Cart => (pendingOf db c).map (fun p =>
        OrderItem.mk db.next_order_id p.item_type p.item_id p.quantity
          p.price)) = (fun c : Cart =>
        (resolveItem db c.item_type c.item_id).map (fun d =>
          OrderItem.mk db.next_order_id c.item_type c.item_id c.quantity
            d.final_price)) := by
      funext c
      cases h : resolveItem db c.item_type c.item_id <;> simp [pendingOf, h]
    rw [List.map_filterMap, hfun]
  · intro hall
    have hnil : (db.cart.filter (fun c => c.user_id == uid)).filterMap
        (pendingOf db) = [] := by
      refine List.filterMap_eq_nil_iff.mpr (fun c hc => ?_)
      simp [pendingOf, hall c hc]
    rw [hnil]
    simp [pendingSum]

/-- C3: after an order is placed, no operation writes the snapshot fields:
changing a catalog item's final price (modelled, since no handler in `src/`
does it) leaves every Order and OrderItem row untouched; `add_to_cart` and
`remove_from_cart` never touch those tables; and `place_order` only appends
new rows, never modifying an existing Order's `total_amount` or an existing
OrderItem's `price`. -/
theorem order_snapshot_immutable (db : DB) (sid mid : Nat) (p q : ℚ)
    (uid : Nat) (t : String) (i : Nat) (qf : FormValue) (loc pm : String)
    (cid : Nat) :
    (set_service_price db sid p).orders = db.orders ∧
    (set_service_price db sid p).order_items = db.order_items ∧
    (set_menu_price db mid q).orders = db.orders ∧
    (set_menu_price db mid q).order_items = db.order_items ∧
    (add_to_cart db uid t i qf).2.orders = db.orders ∧
    (add_to_cart db uid t i qf).2.order_items = db.order_items ∧
    (remove_from_cart db uid cid).2.orders = db.orders ∧
    (remove_from_cart db uid cid).2.order_items = db.order_items ∧
    (∃ newOrders, (place_order db uid loc pm).2.orders =
      db.orders ++ newOrders) ∧
    ∃ newItems, (place_order db uid loc pm).2.order_items =
      db.order_items ++ newItems := by
  have hadd : (add_to_cart db uid t i qf).2.orders = db.orders ∧
      (add_to_cart db uid t i qf).2.order_items = db.order_items := by
    cases hf : db.cart.find? (cartKey uid t i) <;>
      simp [add_to_cart, hf]
  have hrem : (remove_from_cart db uid cid).2.orders = db.orders ∧
      (remove_from_cart db uid cid).2.order_items = db.order_items := by
    rcases hf : db.cart.find? (fun c => c.id == cid) with _ | c
    · simp [remove_from_cart, hf]
    · by_cases ho : (c.user_id != uid) = true <;>
        simp [remove_from_cart, hf, ho]
  have hpl : (∃ newOrders, (place_order db uid loc pm).2.orders =
      db.orders ++ newOrders) ∧
      ∃ newItems, (place_order db uid loc pm).2.order_items =
        db.order_items ++ newItems := by
    by_cases hE : (db.cart.filter (fun c => c.user_id == uid)).isEmpty = true
    · constructor
      · exact ⟨[], by simp [place_order, hE]⟩
      · exact ⟨[], by simp [place_order, hE]⟩
    · have hE' : (db.cart.filter (fun c => c.user_id == uid)).isEmpty
          = false := by simpa using hE
      rw [place_order_nonempty db uid loc pm hE']
      exact ⟨⟨_, rfl⟩, ⟨_, rfl⟩⟩
  exact ⟨rfl, rfl, rfl, rfl, hadd.1, hadd.2, hrem.1, hrem.2, hpl.1, hpl.2⟩

/-- C6: when a cart line for (user, kind, identifier) already exists,
`add_to_cart` rewrites exactly that line, adding the requested amount to its
quantity; no second line is inserted, so the cart keeps its length and every
line before the first match is untouched. -/
theorem add_to_cart_increments_existing (db : DB) (uid : Nat) (t : String)
    (i : Nat) (qf : FormValue) (c : Cart)
    (h : db.cart.find? (cartKey uid t i) = some c) :
    db.cart = db.cart.takeWhile (fun x => !(cartKey uid t i x)) ++
      c :: (db.cart.dropWhile (fun x => !(cartKey uid t i x))).tail ∧
    (add_to_cart db uid t i qf).2.cart =
      db.cart.takeWhile (fun x => !(cartKey uid t i x)) ++
        { c with quantity := c.quantity + parseQuantity qf } ::
          (db.cart.dropWhile (fun x => !(cartKey uid t i x))).tail ∧
    (add_to_cart db uid t i qf).2.cart.length = db.cart.length := by
  obtain ⟨h1, h2, h3⟩ := updateFirst_decomp (cartKey uid t i)
    (fun x => { x with quantity := x.quantity + parseQuantity qf }) db.cart c h
  have hc : (add_to_cart db uid t i qf).2.cart =
      updateFirst (cartKey uid t i)
        (fun x => { x with quantity := x.quantity + parseQuantity qf })
        db.cart := by
    simp only [add_to_cart, h]
  refine ⟨h1, ?_, ?_⟩
  · rw [hc]; exact h2
  · rw [hc, h2]
    conv_rhs => rw [h1]
    simp

/-- C9: `add_to_cart` performs no catalog-existence check: for every item id
— including one present in neither catalog table — it reports success and
the cart afterwards contains a line for (user, kind, identifier); its result
is entirely independent of the contents of the two catalog tables. -/
theorem add_to_cart_no_catalog_check (db : DB) (uid : Nat) (t : String)
    (i : Nat) (qf : FormValue) (S : List Service) (M : List Menu) :
    (add_to_cart db uid t i qf).1.success = true ∧
    ((add_to_cart db uid t i qf).2.cart.filter (cartKey uid t i)).isEmpty
      = false ∧
    (add_to_cart { db with services := S, menus := M } uid t i qf).2.cart =
      (add_to_cart db uid t i qf).2.cart := by
  have hcart : (add_to_cart { db with services := S, menus := M }
      uid t i qf).2.cart = (add_to_cart db uid t i qf).2.cart := by
    cases hf : db.cart.find? (cartKey uid t i) <;> simp [add_to_cart, hf]
  refine ⟨?_, ?_, hcart⟩
  · cases hf : db.cart.find? (cartKey uid t i) <;> simp [add_to_cart, hf]
  · rcases hf : db.cart.find? (cartKey uid t i) with _ | c
    · have hk : cartKey uid t i ⟨db.next_cart_id, uid, t, i, parseQuantity qf⟩
          = true := by simp [cartKey]
      simp only [add_to_cart, hf]
      rw [List.filter_append]
      simp [hk]
    · obtain ⟨h1, h2, h3⟩ := updateFirst_decomp (cartKey uid t i)
        (fun x => { x with quantity := x.quantity + parseQuantity qf })
        db.cart c hf
      have hk : cartKey uid t i
          { c with quantity := c.quantity + parseQuantity qf } = true := by
        rw [cartKey_set_quantity]; exact h3
      simp only [add_to_cart, hf]
      rw [h2, List.filter_append]
      simp [hk]

/-- C2 counterexample: the claim says a non-positive quantity is rejected
with a validation error before any mutation; in the code a quantity of -5
is accepted — `add_to_cart` reports success and writes the negative quantity
into the cart. -/
theorem add_to_cart_accepts_negative_quantity :
    (add_to_cart dbEmpty 1 "menu" 7 (.value (-5))).1.success = true ∧
    (add_to_cart dbEmpty 1 "menu" 7 (.value (-5))).2.cart =
      [⟨0, 1, "menu", 7, -5⟩] := by
  decide

/-- C2 amended: `add_to_cart` performs no validation of the quantity field:
a missing or non-numeric value silently becomes the default 1 (not a
rejection), and any integer value — including zero and negatives — is
accepted, reported as success, and written to the cart. -/
theorem add_to_cart_unvalidated_quantity (db : DB) (uid : Nat) (t : String)
    (i : Nat) (qf : FormValue) (n : Int)
    (hnone : db.cart.find? (cartKey uid t i) = none) :
    (add_to_cart db uid t i qf).1.success = true ∧
    (add_to_cart db uid t i qf).2.cart =
      db.cart ++ [⟨db.next_cart_id, uid, t, i, parseQuantity qf⟩] ∧
    parseQuantity .missing = 1 ∧
    parseQuantity .malformed = 1 ∧
    parseQuantity (.value n) = n := by
  refine ⟨?_, ?_, rfl, rfl, rfl⟩ <;> simp [add_to_cart, hnone]

/-- C7: removing a cart line owned by another user fails as an authorization
error — a result distinct from the not-found outcome — and the database,
in particular the targeted cart line, is left intact. -/
theorem remove_from_cart_unauthorized (db : DB) (uid cid : Nat) (c : Cart)
    (hfind : db.cart.find? (fun x => x.id == cid) = some c)
    (hown : c.user_id ≠ uid) :
    remove_from_cart db uid cid = (.unauthorized, db) ∧
    c ∈ (remove_from_cart db uid cid).2.cart := by
  have hbne : (c.user_id != uid) = true := by simp [hown]
  have hres : remove_from_cart db uid cid = (.unauthorized, db) := by
    simp [remove_from_cart, hfind, hbne]
  exact ⟨hres, by rw [hres]; exact List.mem_of_find?_eq_some hfind⟩

/-- C8: catalog resolution does not filter on the status flag: a row present
in its table resolves whatever its status, and rewriting every status flag
in both tables (e.g. deactivating everything) changes neither whether an
item resolves, nor its resolved final price, nor the cart view total, nor
the outcome, order rows and snapshot rows of `place_order`. -/
theorem resolution_ignores_status (db : DB) (f g : String → String)
    (t : String) (i uid : Nat) (loc pm : String)
    (h : memberWithId db t i = true) :
    (resolveItem db t i).isSome = true ∧
    (resolveItem (set_statuses db f g) t i).isSome = true ∧
    (resolveItem (set_statuses db f g) t i).map ItemDetail.final_price =
      (resolveItem db t i).map ItemDetail.final_price ∧
    (cart_view (set_statuses db f g) uid).2 = (cart_view db uid).2 ∧
    (place_order (set_statuses db f g) uid loc pm).1 =
      (place_order db uid loc pm).1 ∧
    (place_order (set_statuses db f g) uid loc pm).2.orders =
      (place_order db uid loc pm).2.orders ∧
    (place_order (set_statuses db f g) uid loc pm).2.order_items =
      (place_order db uid loc pm).2.order_items := by
  have h1 := resolve_isSome_of_member db t i h
  have hmap := resolveItem_set_statuses db f g t i
  have hpl : (place_order (set_statuses db f g) uid loc pm).1 =
      (place_order db uid loc pm).1 ∧
      (place_order (set_statuses db f g) uid loc pm).2.orders =
        (place_order db uid loc pm).2.orders ∧
      (place_order (set_statuses db f g) uid loc pm).2.order_items =
        (place_order db uid loc pm).2.order_items := by
    by_cases hE : (db.cart.filter (fun c => c.user_id == uid)).isEmpty = true
    · have hnil : db.cart.filter (fun c => c.user_id == uid) = [] :=
        List.isEmpty_iff.mp hE
      have e1 : place_order (set_statuses db f g) uid loc pm =
          (.emptyCart, set_statuses db f g) := by
        simp [place_order, set_statuses, hnil]
      have e2 : place_order db uid loc pm = (.emptyCart, db) := by
        simp [place_order, hnil]
      rw [e1, e2]
      exact ⟨rfl, rfl, rfl⟩
    · have hE' : (db.cart.filter (fun c => c.user_id == uid)).isEmpty
          = false := by simpa using hE
      have hE2 : ((set_statuses db f g).cart.filter
          (fun c => c.user_id == uid)).isEmpty = false := hE'
      rw [place_order_nonempty (set_statuses db f g) uid loc pm hE2,
        place_order_nonempty db uid loc pm hE', pendingOf_set_statuses]
      exact ⟨rfl, rfl, rfl⟩
  refine ⟨h1, ?_, ?_, ?_, hpl.1, hpl.2.1, hpl.2.2⟩
  · rw [hmap]
    rcases hr : resolveItem db t i with _ | d
    · rw [hr] at h1; simp at h1
    · simp
  · rw [hmap]
    rcases hr : resolveItem db t i with _ | d <;>
      simp [final_price_setStatus]
  · rw [cart_view, cart_view,
      show (set_statuses db f g).cart = db.cart from rfl]
    exact cart_total_set_statuses db f g _ [] [] 0

/-- C10: 'service' is the only distinguished kind in the dispatch: any cart
or order line whose item_type is any other string — not only 'menu' — is
resolved against the Menu table, and hence the cart-view loop, the
place_order pricing loop and the order-history enrichment all price such a
line from the Menu table. -/
theorem kind_dispatch_defaults_to_menu (db : DB) (t : String) (i : Nat)
    (h : t ≠ "service") :
    resolveItem db t i = (Menu.get db i).map ItemDetail.menu ∧
    (∀ it : OrderItem, it.item_type = t → historyEntry db it =
      ⟨it.item_type, (Menu.get db it.item_id).map ItemDetail.menu,
        it.quantity, it.price⟩) ∧
    (∀ (acc : ℚ × List PendingItem) (c : Cart), c.item_type = t →
      orderStep db acc c = match Menu.get db c.item_id with
        | none => acc
        | some m => (acc.1 + m.final_price * (c.quantity : ℚ),
            acc.2 ++ [⟨c.item_type, c.item_id, c.quantity,
              m.final_price⟩])) ∧
    (∀ (acc : List CartDetail × ℚ) (c : Cart), c.item_type = t →
      cartStep db acc c = match Menu.get db c.item_id with
        | none => acc
        | some m => (acc.1 ++ [⟨c.id, c.item_type, .menu m, c.quantity,
            m.final_price * (c.quantity : ℚ)⟩],
            acc.2 + m.final_price * (c.quantity : ℚ))) := by
  have ht : (t == "service") = false := beq_eq_false_iff_ne.mpr h
  have hres : ∀ j, resolveItem db t j =
      (Menu.get db j).map ItemDetail.menu := fun j => by
    simp [resolveItem, ht]
  refine ⟨hres i, ?_, ?_, ?_⟩
  · intro it hit
    unfold historyEntry
    rw [hit, hres it.item_id]
  · intro acc c hct
    unfold orderStep
    rw [hct, hres c.item_id]
    cases hm : Menu.get db c.item_id <;> simp [ItemDetail.final_price]
  · intro acc c hct
    unfold cartStep
    rw [hct, hres c.item_id]
    cases hm : Menu.get db c.item_id <;> simp [ItemDetail.final_price]

/-! ### Witnesses -/

/-- Witness for C1: placing the two-line cart (service 1 at 100 × 2, menu 7
at 50 × 1) of user 1. -/
theorem place_order_financially_consistent_witness :
    (place_order dbTwoLines 1 "home" "cash").1 = .placed 1 ∧
    (place_order dbTwoLines 1 "home" "cash").2.cart.filter
      (fun c => c.user_id == 1) = [] ∧
    (place_order dbTwoLines 1 "home" "cash").2.orders =
      [⟨1, 1, linesTotal (orderLines
        (place_order dbTwoLines 1 "home" "cash").2 1),
        "cash", "home", "Pending"⟩] :=
  place_order_financially_consistent dbTwoLines 1 "home" "cash"
    (by simp [dbTwoLines]) (by decide)

/-- Witness for the amended C2: a quantity of -5 on an empty cart is
accepted and stored. -/
theorem add_to_cart_unvalidated_quantity_witness :
    (add_to_cart dbEmpty 1 "menu" 7 (.value (-5))).1.success = true ∧
    (add_to_cart dbEmpty 1 "menu" 7 (.value (-5))).2.cart =
      dbEmpty.cart ++
        [⟨dbEmpty.next_cart_id, 1, "menu", 7,
          parseQuantity (.value (-5))⟩] ∧
    parseQuantity .missing = 1 ∧
    parseQuantity .malformed = 1 ∧
    parseQuantity (.value (-5)) = -5 :=
  add_to_cart_unvalidated_quantity dbEmpty 1 "menu" 7 (.value (-5)) (-5) rfl

/-- Witness for C4: checkout of user 1's empty cart changes nothing. -/
theorem place_order_empty_cart_witness :
    place_order dbEmpty 1 "home" "cash" = (.emptyCart, dbEmpty) :=
  place_order_empty_cart dbEmpty 1 "home" "cash" rfl

/-- Witness for C5: checkout of a cart whose single line is orphaned still
creates an order, with total 0 and no snapshot rows, and clears the cart. -/
theorem place_order_silent_skip_witness :
    (place_order dbOrphan 1 "home" "cash").1 = .placed 1 ∧
    (place_order dbOrphan 1 "home" "cash").2.cart.filter
      (fun c => c.user_id == 1) = [] ∧
    (place_order dbOrphan 1 "home" "cash").2.order_items = [] ∧
    (place_order dbOrphan 1 "home" "cash").2.orders =
      [⟨1, 1, 0, "cash", "home", "Pending"⟩] := by
  have h := place_order_silent_skip dbOrphan 1 "home" "cash" (by decide)
  have h4 := h.2.2.2 (by decide)
  exact ⟨h.1, h.2.1, h4.1, h4.2⟩

/-- Witness for C6: adding quantity 3 to the existing quantity-2 line for
(user 1, menu, item 7) yields one line with quantity 5 and no new line. -/
theorem add_to_cart_increments_existing_witness :
    (add_to_cart dbOneLine 1 "menu" 7 (.value 3)).2.cart =
      [⟨0, 1, "menu", 7, 5⟩] ∧
    (add_to_cart dbOneLine 1 "menu" 7 (.value 3)).2.cart.length =
      dbOneLine.cart.length := by
  have h := add_to_cart_increments_existing dbOneLine 1 "menu" 7 (.value 3)
    ⟨0, 1, "menu", 7, 2⟩ (by decide)
  refine ⟨?_, h.2.2⟩
  rw [h.2.1]
  decide

/-- Witness for C7: user 2 attempting to remove user 1's cart line gets the
authorization failure and the line survives. -/
theorem remove_from_cart_unauthorized_witness :
    remove_from_cart dbOneLine 2 0 = (.unauthorized, dbOneLine) ∧
    (⟨0, 1, "menu", 7, 2⟩ : Cart) ∈
      (remove_from_cart dbOneLine 2 0).2.cart :=
  remove_from_cart_unauthorized dbOneLine 2 0 ⟨0, 1, "menu", 7, 2⟩
    (by decide) (by decide)

/-- Witness for C8: the deactivated service (status "inactive") still
resolves, keeps its price, and is priced into the cart total and the order
even after every status flag is rewritten. -/
theorem resolution_ignores_status_witness :
    (resolveItem dbInactive "service" 1).isSome = true ∧
    (resolveItem (set_statuses dbInactive (fun _ => "inactive")
      (fun _ => "inactive")) "service" 1).isSome = true ∧
    (resolveItem (set_statuses dbInactive (fun _ => "inactive")
      (fun _ => "inactive")) "service" 1).map ItemDetail.final_price =
      (resolveItem dbInactive "service" 1).map ItemDetail.final_price ∧
    (cart_view (set_statuses dbInactive (fun _ => "inactive")
      (fun _ => "inactive")) 1).2 = (cart_view dbInactive 1).2 ∧
    (place_order (set_statuses dbInactive (fun _ => "inactive")
      (fun _ => "inactive")) 1 "home" "cash").1 =
      (place_order dbInactive 1 "home" "cash").1 ∧
    (place_order (set_statuses dbInactive (fun _ => "inactive")
      (fun _ => "inactive")) 1 "home" "cash").2.orders =
      (place_order dbInactive 1 "home" "cash").2.orders ∧
    (place_order (set_statuses dbInactive (fun _ => "inactive")
      (fun _ => "inactive")) 1 "home" "cash").2.order_items =
      (place_order dbInactive 1 "home" "cash").2.order_items :=
  resolution_ignores_status dbInactive (fun _ => "inactive")
    (fun _ => "inactive") "service" 1 1 "home" "cash" (by decide)

/-- Witness for C10: the unknown kind "voucher" is resolved against the
Menu table. -/
theorem kind_dispatch_defaults_to_menu_witness :
    resolveItem dbOneLine "voucher" 7 =
      (Menu.get dbOneLine 7).map ItemDetail.menu :=
  (kind_dispatch_defaults_to_menu dbOneLine "voucher" 7 (by decide)).1

end UserApp
